import Mathlib

/-!
Verification development for the Google Sheets agent script
(`7.0-spreadsheet-agent.py`).  The tool functions are shallowly embedded:
the remote Sheets API is an injected `Except`-valued outcome, Python dicts
are modelled as insertion-ordered association lists, Python floats as exact
rationals, and each tool's JSON response as a small JSON value tree.
-/

namespace SheetsAgent

/-! ### Python `dict` model: insertion-ordered association lists.
`dictInsert` updates an existing key in place (keeping its position, as
CPython dicts do) and otherwise appends the new key at the end. -/

/-- A Python string-keyed dict with values in `α`, in insertion order. -/
abbrev PyDict (α : Type) := List (String × α)

/-- A record derived from a sheet row: header name to cell value. -/
abbrev Record := PyDict String

/-- `d[k] = v` on a Python dict: update in place or append. -/
def dictInsert {α : Type} : PyDict α → String → α → PyDict α
  | [], k, v => [(k, v)]
  | (k', v') :: rest, k, v =>
      if k' = k then (k, v) :: rest else (k', v') :: dictInsert rest k v

/-- `d.get(k)`-style lookup: first binding of `k`, if any. -/
def dictLookup {α : Type} : PyDict α → String → Option α
  | [], _ => none
  | (k', v') :: rest, k => if k' = k then some v' else dictLookup rest k

/-- `d.get(k, dflt)` on a Python dict. -/
def dictGet {α : Type} (d : PyDict α) (k : String) (dflt : α) : α :=
  (dictLookup d k).getD dflt

/-- `list(d.keys())` on a Python dict. -/
def dictKeys {α : Type} (d : PyDict α) : List String :=
  d.map Prod.fst

/-- The key list obtained by inserting the keys `ks` in order into a dict
whose key list is `acc`: an existing key is kept in place, a new key is
appended.  Describes the keys of a sequence of `dictInsert`s. -/
def insKeys (acc : List String) : List String → List String
  | [] => acc
  | k :: ks => insKeys (if k ∈ acc then acc else acc ++ [k]) ks

/-! ### Python string helpers -/

/-- `s.strip()` on a Python string: drop leading and trailing whitespace
(the model uses the ASCII whitespace characters of `Char.isWhitespace`). -/
def pyStrip (s : String) : String :=
  ⟨((s.data.dropWhile Char.isWhitespace).reverse.dropWhile Char.isWhitespace).reverse⟩

/-- Numeric value of a list of ASCII decimal digit characters. -/
def digitsVal (cs : List Char) : Nat :=
  cs.foldl (fun a c => 10 * a + (c.toNat - 48)) 0

/-- Unsigned part of Python `float()` string parsing: decimal digits with
at most one dot and at least one digit overall.  Exponent, `inf`/`nan`,
underscore and whitespace forms are not modelled: no string accepted by the
script's digit-based eligibility test can contain them. -/
def pyFloatCore (cs : List Char) : Option ℚ :=
  let ip := cs.takeWhile Char.isDigit
  match cs.dropWhile Char.isDigit with
  | [] => if ip.isEmpty then none else some (digitsVal ip)
  | '.' :: frac =>
      if frac.all Char.isDigit && (!ip.isEmpty || !frac.isEmpty) then
        some ((digitsVal ip : ℚ) + (digitsVal frac : ℚ) / (10 : ℚ) ^ frac.length)
      else none
  | _ => none

/-- Python `float(s)` on a cell string (`none` models a `ValueError`).
Modelled for the finite decimal forms with an optional single leading
sign; see `pyFloatCore` for the forms deliberately left out. -/
def pyFloat (s : String) : Option ℚ :=
  match s.data with
  | '-' :: rest => (pyFloatCore rest).map Neg.neg
  | '+' :: rest => pyFloatCore rest
  | cs => pyFloatCore cs

/-- The script's numeric-eligibility test
`str(v).replace('.', '').replace('-', '').isdigit()`: after removing every
dot and dash the string is non-empty and all decimal digits. -/
def pyEligible (s : String) : Bool :=
  let stripped := s.data.filter (fun c => !(c = '.' || c = '-'))
  !stripped.isEmpty && stripped.all Char.isDigit

/-! ### Record building (`read_sheet_data`, lines 108-117) -/

/-- `enumerate` with a starting index. -/
def enumF {α : Type} (i : Nat) : List α → List (Nat × α)
  | [] => []
  | a :: l => (i, a) :: enumF (i + 1) l

/-- One record from a data row:
`for i, header in enumerate(headers): row_dict[header] = row[i] if i < len(row) else ""`. -/
def buildRecord (headers row : List String) : Record :=
  (enumF 0 headers).foldl (fun d p => dictInsert d p.2 (row.getD p.1 "")) []

/-- Shape of `read_sheet_data`'s response before JSON serialization. -/
inductive ReadOutcome where
  | failure (msg : String)
  | noData
  | structured (headers : List String) (data : List Record) (rowCount : Nat)
  | raw (rawData : List (List String)) (rowCount : Nat)
deriving DecidableEq

/-- Core of `read_sheet_data`: the remote call's outcome (grid of cell
strings, or a raised error message) is injected as an `Except` value. -/
def readCore : Except String (List (List String)) → ReadOutcome
  | .error e => .failure ("Failed to read sheet data: " ++ e)
  | .ok [] => .noData
  | .ok [row] => .raw [row] 1
  | .ok (hs :: rest) => .structured hs (rest.map (buildRecord hs)) rest.length

/-! ### `analyze_sheet_data` core computations -/

/-- `data[:3] if len(data) > 3 else data`. -/
def sampleOf (data : List Record) : List Record :=
  if 3 < data.length then data.take 3 else data

/-- `sum(1 for row in data for value in row.values() if str(value).strip())`. -/
def nonEmptyCells (data : List Record) : Nat :=
  (data.map (fun r => (r.map Prod.snd).countP (fun v => !(pyStrip v).isEmpty))).sum

/-- `sum(1 for row in data for value in row.values() if not str(value).strip())`. -/
def emptyCells (data : List Record) : Nat :=
  (data.map (fun r => (r.map Prod.snd).countP (fun v => (pyStrip v).isEmpty))).sum

/-- The parsed values of
`[float(row[col]) for row in data if str(row[col]).replace('.','').replace('-','').isdigit()]`:
`none` models an exception escaping the comprehension (a missing key while
evaluating `row[col]`, or `float` failing on an eligible value), which the
per-column `except: continue` turns into skipping the whole column. -/
def colValues (data : List Record) (col : String) : Option (List ℚ) :=
  match data with
  | [] => some []
  | r :: rest =>
      match dictLookup r col with
      | none => none
      | some v =>
          if pyEligible v then
            match pyFloat v with
            | none => none
            | some q => (colValues rest col).map (fun qs => q :: qs)
          else colValues rest col

/-- The raw eligible strings of a column (the comprehension's filter). -/
def eligValues (data : List Record) (col : String) : List String :=
  (data.map (fun r => dictGet r col "")).filter pyEligible

/-- Python `min(values)` on a non-empty list (junk value on `[]`, which the
script never reaches thanks to its `if values:` guard). -/
def pyMin : List ℚ → ℚ
  | [] => 0
  | v :: vs => vs.foldl min v

/-- Python `max(values)` on a non-empty list (junk value on `[]`). -/
def pyMax : List ℚ → ℚ
  | [] => 0
  | v :: vs => vs.foldl max v

/-- Per-column payload of the `statistics` analysis. -/
structure Stats where
  count : Nat
  mean : ℚ
  min : ℚ
  max : ℚ
deriving DecidableEq

/-- One column's entry for `numeric_analysis`: `none` when the column is
skipped (exception, or no eligible value). -/
def statsOf (data : List Record) (col : String) : Option Stats :=
  match colValues data col with
  | none => none
  | some [] => none
  | some (v :: vs) =>
      some { count := (v :: vs).length
             mean := (v :: vs).sum / ((v :: vs).length : ℚ)
             min := pyMin (v :: vs)
             max := pyMax (v :: vs) }

/-- A loop `for col in headers:` that conditionally sets `acc[col]`.
Shared shape of the `statistics` and `trends` per-column loops. -/
def condInsertFold {α : Type} (g : String → Option α) (headers : List String) : PyDict α :=
  headers.foldl
    (fun acc col =>
      match g col with
      | some v => dictInsert acc col v
      | none => acc)
    []

/-- `numeric_analysis` of the `statistics` branch (lines 310-323). -/
def numericStatistics (headers : List String) (data : List Record) : PyDict Stats :=
  condInsertFold (statsOf data) headers

/-- `[str(row[col]).strip() for row in data if str(row[col]).strip()]`.
In the pipeline every record contains every header, so the unreachable
`KeyError` path of `row[col]` is modelled by the dict's `""` default. -/
def trendsValues (data : List Record) (col : String) : List String :=
  (data.map (fun r => pyStrip (dictGet r col ""))).filter (fun s => !s.isEmpty)

/-- `value_counts[value] = value_counts.get(value, 0) + 1` over the values,
yielding the frequency dict in first-encounter order. -/
def freqTable (values : List String) : PyDict Nat :=
  values.foldl (fun counts v => dictInsert counts v (dictGet counts v 0 + 1)) []

/-- Comparison used to model Python's
`sorted(value_counts.items(), key=lambda x: x[1], reverse=True)`:
a stable insertion sort that places an entry before another exactly when
its count is strictly larger reproduces stable descending order. -/
def countGE (a b : String × Nat) : Prop := b.2 ≤ a.2

instance : DecidableRel countGE := fun a b => inferInstanceAs (Decidable (b.2 ≤ a.2))

instance : IsTotal (String × Nat) countGE := ⟨fun a b => Nat.le_total b.2 a.2⟩

instance : IsTrans (String × Nat) countGE := ⟨fun _ _ _ h h' => Nat.le_trans h' h⟩

/-- Stable sort of frequency entries by descending count. -/
def sortByCountDesc (l : List (String × Nat)) : List (String × Nat) :=
  l.insertionSort countGE

/-- Top-3 most common values of one column (lines 337-343). -/
def mostCommon3 (values : List String) : List (String × Nat) :=
  (sortByCountDesc (freqTable values)).take 3

/-- One column's entry for `most_common_values`: `none` when the column has
no non-empty trimmed value (the `if values:` guard fails). -/
def mcvOf (data : List Record) (col : String) : Option (List (String × Nat)) :=
  let values := trendsValues data col
  if values.isEmpty then none else some (mostCommon3 values)

/-- `most_common_values` of the `trends` branch (lines 336-344). -/
def mostCommonValues (headers : List String) (data : List Record) :
    PyDict (List (String × Nat)) :=
  condInsertFold (mcvOf data) headers

/-! ### Report composition (`create_summary_report`, lines 374-408) -/

/-- The `report_data` grid: the literal ten-row header block, one
`["{i}.", col]` row per column (1-based), the sample-data banner, and, when
the sample is non-empty, the header row followed by the rendered sample
rows `[str(row_data.get(col, "")) for col in headers]`. -/
def composeReportData (title ts srcRange : String) (rc cc ne : Nat)
    (columns : List String) (sample : List Record) : List (List String) :=
  let base :=
    [[title],
     ["Generated on:", ts],
     ["Source Range:", srcRange],
     [""],
     ["Summary Statistics:"],
     ["Total Rows:", toString rc],
     ["Total Columns:", toString cc],
     ["Non-empty Cells:", toString ne],
     [""],
     ["Column Names:"]]
  let withCols := base ++ (enumF 1 columns).map (fun p => [toString p.1 ++ ".", p.2])
  let withBanner := withCols ++ [[""], ["Sample Data (first 3 rows):"]]
  if sample.isEmpty then withBanner
  else withBanner ++ [columns] ++ sample.map (fun r => columns.map (fun c => dictGet r c ""))

/-! ### JSON responses at the tool boundary -/

/-- A JSON value, as produced by `json.dumps` of the tool responses.
Numbers are split into the integers (`n`) and the floats (`q`, modelled as
exact rationals) the script actually serializes. -/
inductive JVal where
  | s (v : String)
  | n (v : Nat)
  | q (v : ℚ)
  | b (v : Bool)
  | arr (vs : List JVal)
  | obj (fields : List (String × JVal))

/-- A top-level JSON object (the serialized response dict). -/
abbrev JDict := PyDict JVal

/-- Python truthiness of a JSON value (used by `write_data.get("success")`). -/
def JVal.truthy : JVal → Bool
  | .s v => !v.isEmpty
  | .n v => v != 0
  | .q v => v != 0
  | .b v => v
  | .arr vs => !vs.isEmpty
  | .obj fs => !fs.isEmpty

/-- A record serialized as a JSON object. -/
def recordToJ (r : Record) : JVal :=
  .obj (r.map (fun p => (p.1, .s p.2)))

/-- `full_range = f"{sheet_name}!{range_name}" if sheet_name else range_name`. -/
def fullRange (sheetName rangeName : String) : String :=
  if sheetName.isEmpty then rangeName else sheetName ++ "!" ++ rangeName

/-- `read_sheet_data`'s serialized response (lines 102-133). -/
def readSheetData (remote : Except String (List (List String)))
    (sheetName rangeName : String) : JDict :=
  match readCore remote with
  | .failure msg => [("error", .s msg)]
  | .noData => [("message", .s "No data found in the specified range")]
  | .structured hs data rc =>
      [("range", .s (fullRange sheetName rangeName)),
       ("headers", .arr (hs.map .s)),
       ("data", .arr (data.map recordToJ)),
       ("row_count", .n rc)]
  | .raw vals rc =>
      [("range", .s (fullRange sheetName rangeName)),
       ("raw_data", .arr (vals.map (fun row => .arr (row.map .s)))),
       ("row_count", .n rc)]

/-- Remote result fields of a successful `values().update()` call, after
the script's `result.get(..., 0)` defaulting. -/
structure WriteRemote where
  updatedCells : Nat
  updatedRows : Nat
  updatedColumns : Nat

/-- `write_sheet_data`'s serialized response (lines 136-178). -/
def writeSheetData (remote : Except String WriteRemote)
    (sheetName rangeName : String) : JDict :=
  match remote with
  | .error e => [("error", .s ("Failed to write sheet data: " ++ e))]
  | .ok w =>
      [("success", .b true),
       ("message", .s ("Updated " ++ toString w.updatedCells ++ " cells in "
           ++ fullRange sheetName rangeName)),
       ("range", .s (fullRange sheetName rangeName)),
       ("updated_rows", .n w.updatedRows),
       ("updated_columns", .n w.updatedColumns)]

/-- Remote result fields of a successful `values().append()` call, after
the script's `result.get('updates', {}).get(..., default)` chain. -/
structure AppendRemote where
  updatedRange : String
  updatedRows : Nat
  updatedCells : Nat

/-- `append_sheet_data`'s serialized response (lines 181-223). -/
def appendSheetData (remote : Except String AppendRemote)
    (data : List (List String)) (sheetName : String) : JDict :=
  match remote with
  | .error e => [("error", .s ("Failed to append sheet data: " ++ e))]
  | .ok u =>
      [("success", .b true),
       ("message", .s ("Appended " ++ toString data.length ++ " rows to " ++ sheetName)),
       ("updated_range", .s u.updatedRange),
       ("updated_rows", .n u.updatedRows),
       ("updated_cells", .n u.updatedCells)]

/-- `clear_sheet_range`'s serialized response (lines 226-258); the remote
payload is `result.get('clearedRange', full_range)`'s optional field. -/
def clearSheetRange (remote : Except String (Option String))
    (sheetName rangeName : String) : JDict :=
  match remote with
  | .error e => [("error", .s ("Failed to clear sheet range: " ++ e))]
  | .ok cr =>
      [("success", .b true),
       ("message", .s ("Cleared range " ++ fullRange sheetName rangeName)),
       ("cleared_range", .s (cr.getD (fullRange sheetName rangeName)))]

/-- Typed shape of `analyze_sheet_data`'s kind-specific payload. -/
inductive KindPayload where
  | summary (rowCount colCount nonEmpty : Nat) (sampleData : List Record)
  | statistics (numeric : PyDict Stats)
  | trends (mostCommon : PyDict (List (String × Nat))) (emptyCount totalCells : Nat)
  | generic

/-- Shape of `analyze_sheet_data`'s response before JSON serialization. -/
inductive AnalyzeOutcome where
  | failure (msg : String)
  | result (analysisType range : String) (totalRows totalColumns : Nat)
      (columns : List String) (payload : KindPayload)

/-- Core of `analyze_sheet_data` (lines 274-346): re-reads the range, then
branches on the analysis kind.  A missing `data` key (empty or single-row
grid) and a read error both surface as `failure`. -/
def analyzeCore (remote : Except String (List (List String)))
    (analysisType sheetName rangeName : String) : AnalyzeOutcome :=
  match readCore remote with
  | .failure msg => .failure msg
  | .noData => .failure "No structured data available for analysis"
  | .raw _ _ => .failure "No structured data available for analysis"
  | .structured headers data _ =>
      .result analysisType (sheetName ++ "!" ++ rangeName) data.length headers.length headers
        (if analysisType = "summary" then
          .summary data.length headers.length (nonEmptyCells data) (sampleOf data)
        else if analysisType = "statistics" then
          .statistics (numericStatistics headers data)
        else if analysisType = "trends" then
          .trends (mostCommonValues headers data) (emptyCells data)
            (data.length * headers.length)
        else .generic)

/-- Serialized fields of the `summary` payload dict. -/
def summaryJ (rc cc ne : Nat) (sample : List Record) : List (String × JVal) :=
  [("row_count", .n rc),
   ("column_count", .n cc),
   ("non_empty_cells", .n ne),
   ("sample_data", .arr (sample.map recordToJ))]

/-- Serialized kind-specific fields appended to `analysis_result`. -/
def payloadFields : KindPayload → List (String × JVal)
  | .summary rc cc ne sample => [("summary", .obj (summaryJ rc cc ne sample))]
  | .statistics numeric =>
      [("numeric_statistics",
        .obj (numeric.map (fun p =>
          (p.1, .obj [("count", .n p.2.count), ("mean", .q p.2.mean),
                      ("min", .q p.2.min), ("max", .q p.2.max)]))))]
  | .trends mc ec tc =>
      [("trends",
        .obj [("most_common_values",
                .obj (mc.map (fun p =>
                  (p.1, .arr (p.2.map (fun e => .arr [.s e.1, .n e.2])))))),
              ("data_quality",
                .obj [("empty_cells", .n ec), ("total_cells", .n tc)])])]
  | .generic => []

/-- `analyze_sheet_data`'s serialized response. -/
def analyzeSheetData (remote : Except String (List (List String)))
    (analysisType sheetName rangeName : String) : JDict :=
  match analyzeCore remote analysisType sheetName rangeName with
  | .failure msg => [("error", .s msg)]
  | .result ty rng tr tc cols payload =>
      [("analysis_type", .s ty),
       ("range", .s rng),
       ("total_rows", .n tr),
       ("total_columns", .n tc),
       ("columns", .arr (cols.map .s))] ++ payloadFields payload

/-- `create_summary_report`'s serialized response (lines 352-426): runs the
summary analysis on the injected read outcome, composes the report grid,
writes it through `write_sheet_data` with the injected write outcome, and
reports.  `ts` stands in for `pd.Timestamp.now().strftime(...)`. -/
def createSummaryReport (readRemote : Except String (List (List String)))
    (writeRemote : Except String WriteRemote)
    (title ts sourceRange sheetName : String) : JDict :=
  match analyzeCore readRemote "summary" sheetName sourceRange with
  | .failure msg => [("error", .s msg)]
  | .result _ _ _ _ columns payload =>
      match payload with
      | .summary rc cc ne sample =>
          let reportData :=
            composeReportData title ts (sheetName ++ "!" ++ sourceRange) rc cc ne columns sample
          let reportRange := "H1:K" ++ toString reportData.length
          let writeResp := writeSheetData writeRemote sheetName reportRange
          if (match dictLookup writeResp "success" with
              | some v => v.truthy
              | none => false) then
            [("success", .b true),
             ("message", .s ("Created summary report '" ++ title ++ "' in range "
                 ++ sheetName ++ "!" ++ reportRange)),
             ("report_location", .s (sheetName ++ "!" ++ reportRange)),
             ("report_rows", .n reportData.length),
             ("source_data_summary", .obj (summaryJ rc cc ne sample))]
          else writeResp
      | _ => [("error", .s "Failed to create summary report: 'summary'")]

/-- Value found by the last binding of a key in a pair sequence
(later assignments to a dict key overwrite earlier ones). -/
def lastVal {α : Type} : List (String × α) → String → Option α
  | [], _ => none
  | p :: t, k =>
      match lastVal t k with
      | some v => some v
      | none => if p.1 = k then some p.2 else none

/-- A sequence of `d[k] = v` assignments, folded left over the pairs. -/
def foldPairs {α : Type} (d : PyDict α) (ps : List (String × α)) : PyDict α :=
  ps.foldl (fun a p => dictInsert a p.1 p.2) d

/-- The sequence of `(key, value)` assignments performed by `buildRecord`. -/
def pairsOf (hs row : List String) : List (String × String) :=
  (enumF 0 hs).map (fun p => (p.2, row.getD p.1 ""))

/-- Whether a serialized response carries the flag `"success": true`. -/
def carriesSuccessTrue (d : JDict) : Prop :=
  dictLookup d "success" = some (.b true)

/-- Whether a serialized response carries an `"error"` message field. -/
def carriesError (d : JDict) : Prop :=
  ∃ m : String, dictLookup d "error" = some (.s m)

/-! ### Lemmas about the dict model -/

theorem dictLookup_dictInsert {α : Type} (d : PyDict α) (k : String) (v : α) (key : String) :
    dictLookup (dictInsert d k v) key = if key = k then some v else dictLookup d key := by
  induction d with
  | nil =>
      simp only [dictInsert, dictLookup]
      by_cases h : key = k
      · simp [h]
      · simp [h, Ne.symm h]
  | cons p rest ih =>
      obtain ⟨k', v'⟩ := p
      simp only [dictInsert]
      by_cases hk : k' = k
      · subst hk
        simp only [if_pos rfl, dictLookup]
        by_cases h : key = k'
        · simp [h]
        · simp [h, Ne.symm h]
      · simp only [if_neg hk, dictLookup]
        by_cases h1 : k' = key
        · subst h1
          simp [hk, Ne.symm hk]
        · simp only [if_neg h1, ih]

theorem dictInsert_of_not_mem {α : Type} {d : PyDict α} {k : String} (v : α)
    (h : k ∉ dictKeys d) : dictInsert d k v = d ++ [(k, v)] := by
  induction d with
  | nil => rfl
  | cons p rest ih =>
      simp only [dictKeys, List.map_cons, List.mem_cons, not_or] at h
      simp only [dictInsert, if_neg (Ne.symm h.1), List.cons_append]
      rw [ih h.2]

theorem dictKeys_dictInsert {α : Type} (d : PyDict α) (k : String) (v : α) :
    dictKeys (dictInsert d k v) = if k ∈ dictKeys d then dictKeys d else dictKeys d ++ [k] := by
  induction d with
  | nil => rfl
  | cons p rest ih =>
      obtain ⟨k', v'⟩ := p
      simp only [dictInsert, dictKeys, List.map_cons]
      by_cases hk : k' = k
      · subst hk
        simp [dictKeys]
      · simp only [if_neg hk, List.map_cons]
        by_cases hm : k ∈ dictKeys rest
        · simp only [dictKeys] at hm ih
          simp [hm, ih, hk, Ne.symm hk]
        · simp only [dictKeys] at hm ih
          simp [hm, ih, hk, Ne.symm hk]

theorem dictLookup_eq_none_iff {α : Type} (d : PyDict α) (k : String) :
    dictLookup d k = none ↔ k ∉ dictKeys d := by
  induction d with
  | nil => simp [dictLookup, dictKeys]
  | cons p rest ih =>
      obtain ⟨k', v'⟩ := p
      simp only [dictLookup, dictKeys, List.map_cons, List.mem_cons]
      by_cases h : k' = k
      · simp [h]
      · simp [h, ih, dictKeys, Ne.symm h]

theorem dictLookup_mem_some {α : Type} {d : PyDict α} {k : String}
    (h : k ∈ dictKeys d) : ∃ v, dictLookup d k = some v := by
  cases hl : dictLookup d k with
  | none => exact absurd ((dictLookup_eq_none_iff d k).mp hl) (fun hn => hn h)
  | some v => exact ⟨v, rfl⟩

theorem dictKeys_nodup_dictInsert {α : Type} {d : PyDict α} (k : String) (v : α)
    (h : (dictKeys d).Nodup) : (dictKeys (dictInsert d k v)).Nodup := by
  rw [dictKeys_dictInsert]
  by_cases hm : k ∈ dictKeys d
  · simpa [hm]
  · simp only [if_neg hm, List.nodup_append]
    refine ⟨h, List.nodup_singleton k, ?_⟩
    intro a ha hk
    rw [List.mem_singleton] at hk
    subst hk
    exact hm ha

theorem dictExt {α : Type} : ∀ {d₁ d₂ : PyDict α}, (dictKeys d₁).Nodup →
    dictKeys d₁ = dictKeys d₂ → (∀ k, dictLookup d₁ k = dictLookup d₂ k) → d₁ = d₂ := by
  intro d₁
  induction d₁ with
  | nil =>
      intro d₂ _ hk _
      cases d₂ with
      | nil => rfl
      | cons p t => simp [dictKeys] at hk
  | cons p t ih =>
      intro d₂ hnd hk hl
      obtain ⟨k, v⟩ := p
      cases d₂ with
      | nil => simp [dictKeys] at hk
      | cons q t₂ =>
          obtain ⟨k₂, v₂⟩ := q
          simp only [dictKeys, List.map_cons, List.cons.injEq] at hk
          obtain ⟨hkk, hkt⟩ := hk
          subst hkk
          have hv : v = v₂ := by
            have := hl k
            simpa [dictLookup] using this
          subst hv
          simp only [dictKeys, List.map_cons, List.nodup_cons] at hnd
          have htl : ∀ key, dictLookup t key = dictLookup t₂ key := by
            intro key
            by_cases h : k = key
            · subst h
              have h1 : dictLookup t k = none :=
                (dictLookup_eq_none_iff t k).mpr hnd.1
              have h2 : dictLookup t₂ k = none :=
                (dictLookup_eq_none_iff t₂ k).mpr
                  (by show k ∉ List.map Prod.fst t₂; rw [← hkt]; exact hnd.1)
              rw [h1, h2]
            · have := hl key
              simpa [dictLookup, h] using this
          rw [ih hnd.2 hkt htl]

theorem dictLookup_foldPairs {α : Type} (ps : List (String × α)) :
    ∀ (d : PyDict α) (k : String),
      dictLookup (foldPairs d ps) k =
        match lastVal ps k with
        | some v => some v
        | none => dictLookup d k := by
  induction ps with
  | nil => intro d k; rfl
  | cons p t ih =>
      intro d k
      have step : foldPairs d (p :: t) = foldPairs (dictInsert d p.1 p.2) t := rfl
      rw [step, ih]
      simp only [lastVal]
      cases lastVal t k with
      | some v => rfl
      | none =>
          rw [dictLookup_dictInsert]
          by_cases h : p.1 = k
          · simp [h]
          · simp [h, Ne.symm h]

theorem dictLookup_foldPairs_nil {α : Type} (ps : List (String × α)) (k : String) :
    dictLookup (foldPairs [] ps) k = lastVal ps k := by
  rw [dictLookup_foldPairs]
  cases lastVal ps k <;> rfl

theorem dictKeys_foldPairs {α : Type} (ps : List (String × α)) :
    ∀ d : PyDict α, dictKeys (foldPairs d ps) = insKeys (dictKeys d) (ps.map Prod.fst) := by
  induction ps with
  | nil => intro d; rfl
  | cons p t ih =>
      intro d
      have step : foldPairs d (p :: t) = foldPairs (dictInsert d p.1 p.2) t := rfl
      rw [step, ih]
      simp only [List.map_cons, insKeys, dictKeys_dictInsert]

theorem dictKeys_nodup_foldPairs {α : Type} (ps : List (String × α)) :
    ∀ d : PyDict α, (dictKeys d).Nodup → (dictKeys (foldPairs d ps)).Nodup := by
  induction ps with
  | nil => intro d h; exact h
  | cons p t ih =>
      intro d h
      exact ih (dictInsert d p.1 p.2) (dictKeys_nodup_dictInsert p.1 p.2 h)

theorem mem_insKeys (k : String) (ks : List String) :
    ∀ acc : List String, k ∈ insKeys acc ks ↔ k ∈ acc ∨ k ∈ ks := by
  induction ks with
  | nil => intro acc; simp [insKeys]
  | cons h t ih =>
      intro acc
      simp only [insKeys, ih]
      by_cases hm : h ∈ acc
      · simp only [if_pos hm, List.mem_cons]
        constructor
        · rintro (ha | ht)
          · exact Or.inl ha
          · exact Or.inr (Or.inr ht)
        · rintro (ha | hk | ht)
          · exact Or.inl ha
          · exact Or.inl (hk ▸ hm)
          · exact Or.inr ht
      · simp only [if_neg hm, List.mem_append, List.mem_singleton, List.mem_cons]
        tauto

theorem insKeys_nodup (ks : List String) :
    ∀ acc : List String, acc.Nodup → (insKeys acc ks).Nodup := by
  induction ks with
  | nil => intro acc h; exact h
  | cons h t ih =>
      intro acc hacc
      simp only [insKeys]
      by_cases hm : h ∈ acc
      · simpa [hm] using ih acc hacc
      · refine ih _ ?_
        simp only [if_neg hm, List.nodup_append]
        refine ⟨hacc, List.nodup_singleton h, ?_⟩
        intro a ha hk
        rw [List.mem_singleton] at hk
        subst hk
        exact hm ha

theorem insKeys_of_disjoint_nodup (ks : List String) :
    ∀ acc : List String, ks.Nodup → (∀ k ∈ ks, k ∉ acc) → insKeys acc ks = acc ++ ks := by
  induction ks with
  | nil => intro acc _ _; simp [insKeys]
  | cons h t ih =>
      intro acc hnd hdisj
      simp only [List.nodup_cons] at hnd
      simp only [insKeys, if_neg (hdisj h (List.mem_cons_self h t))]
      rw [ih (acc ++ [h]) hnd.2]
      · simp
      · intro k hk
        simp only [List.mem_append, List.mem_singleton, not_or]
        exact ⟨hdisj k (List.mem_cons_of_mem h hk), fun he => hnd.1 (he ▸ hk)⟩

theorem insKeys_length_le (ks : List String) :
    ∀ acc : List String, (insKeys acc ks).length ≤ acc.length + ks.length := by
  induction ks with
  | nil => intro acc; simp [insKeys]
  | cons h t ih =>
      intro acc
      simp only [insKeys, List.length_cons]
      by_cases hm : h ∈ acc
      · simp only [if_pos hm]
        exact le_trans (ih acc) (by omega)
      · simp only [if_neg hm]
        have := ih (acc ++ [h])
        simp only [List.length_append, List.length_singleton] at this
        omega

theorem insKeys_length_lt_of_hit (ks : List String) :
    ∀ acc : List String, (∃ x ∈ ks, x ∈ acc) →
      (insKeys acc ks).length < acc.length + ks.length := by
  induction ks with
  | nil => rintro acc ⟨x, hx, _⟩; simp at hx
  | cons h t ih =>
      rintro acc ⟨x, hx, hxa⟩
      simp only [List.mem_cons] at hx
      simp only [insKeys, List.length_cons]
      rcases hx with rfl | hxt
      · simp only [if_pos hxa]
        have := insKeys_length_le t acc
        omega
      · by_cases hm : h ∈ acc
        · simp only [if_pos hm]
          have := ih acc ⟨x, hxt, hxa⟩
          omega
        · simp only [if_neg hm]
          have := ih (acc ++ [h]) ⟨x, hxt, by simp [hxa]⟩
          simp only [List.length_append, List.length_singleton] at this
          omega

theorem insKeys_length_lt_of_dup (ks : List String) (hdup : ¬ ks.Nodup) :
    ∀ acc : List String, (insKeys acc ks).length < acc.length + ks.length := by
  induction ks with
  | nil => exact absurd List.nodup_nil hdup
  | cons h t ih =>
      intro acc
      simp only [List.nodup_cons, not_and_or] at hdup
      simp only [insKeys, List.length_cons]
      rcases hdup with hmem | hnd
      · rw [not_not] at hmem
        by_cases hm : h ∈ acc
        · simp only [if_pos hm]
          have := insKeys_length_lt_of_hit t acc ⟨h, hmem, hm⟩
          omega
        · simp only [if_neg hm]
          have := insKeys_length_lt_of_hit t (acc ++ [h]) ⟨h, hmem, by simp⟩
          simp only [List.length_append, List.length_singleton] at this
          omega
      · by_cases hm : h ∈ acc
        · simp only [if_pos hm]
          have := ih hnd acc
          omega
        · simp only [if_neg hm]
          have := ih hnd (acc ++ [h])
          simp only [List.length_append, List.length_singleton] at this
          omega

/-! ### Lemmas about record building -/

theorem enumF_length {α : Type} (l : List α) : ∀ i, (enumF i l).length = l.length := by
  induction l with
  | nil => intro i; rfl
  | cons a t ih => intro i; simp [enumF, ih]

theorem enumF_getElem? {α : Type} (l : List α) :
    ∀ i j, (enumF i l)[j]? = l[j]?.map (fun a => (i + j, a)) := by
  induction l with
  | nil => intro i j; simp [enumF]
  | cons a t ih =>
      intro i j
      cases j with
      | zero => simp [enumF]
      | succ j =>
          simp only [enumF, List.getElem?_cons_succ, ih (i + 1) j]
          cases t[j]? with
          | none => rfl
          | some b => simp [Nat.add_assoc, Nat.add_comm 1 j]

theorem enumF_map_pair_fst {α β : Type} (l : List α) (g : Nat × α → β) :
    ∀ i, ((enumF i l).map (fun p => (p.2, g p))).map Prod.fst = l := by
  induction l with
  | nil => intro i; rfl
  | cons a t ih => intro i; simp only [enumF, List.map_cons, ih]

theorem enumF_mem {α : Type} (l : List α) :
    ∀ i p, p ∈ enumF i l → ∃ j, ∃ hj : j < l.length, p = (i + j, l.get ⟨j, hj⟩) := by
  induction l with
  | nil => intro i p hp; simp [enumF] at hp
  | cons a t ih =>
      intro i p hp
      simp only [enumF, List.mem_cons] at hp
      rcases hp with rfl | hp
      · exact ⟨0, by simp, by simp⟩
      · obtain ⟨j, hj, rfl⟩ := ih (i + 1) p hp
        exact ⟨j + 1, by simpa using hj, by simp [Nat.add_assoc, Nat.add_comm 1 j]⟩

theorem buildRecord_eq_foldPairs (hs row : List String) :
    buildRecord hs row = foldPairs [] (pairsOf hs row) := by
  unfold buildRecord foldPairs pairsOf
  rw [List.foldl_map]

theorem pairsOf_map_fst (hs row : List String) : (pairsOf hs row).map Prod.fst = hs :=
  enumF_map_pair_fst hs (fun p => row.getD p.1 "") 0

theorem dictLookup_buildRecord (hs row : List String) (k : String) :
    dictLookup (buildRecord hs row) k = lastVal (pairsOf hs row) k := by
  rw [buildRecord_eq_foldPairs, dictLookup_foldPairs_nil]

theorem dictKeys_buildRecord (hs row : List String) :
    dictKeys (buildRecord hs row) = insKeys [] hs := by
  rw [buildRecord_eq_foldPairs, dictKeys_foldPairs, pairsOf_map_fst]
  rfl

theorem dictKeys_buildRecord_nodup (hs row : List String) :
    (dictKeys (buildRecord hs row)).Nodup := by
  rw [dictKeys_buildRecord]
  exact insKeys_nodup hs [] List.nodup_nil

theorem lastVal_eq_none {α : Type} (ps : List (String × α)) (k : String)
    (h : k ∉ ps.map Prod.fst) : lastVal ps k = none := by
  induction ps with
  | nil => rfl
  | cons p t ih =>
      simp only [List.map_cons, List.mem_cons, not_or] at h
      simp only [lastVal, ih h.2]
      rw [if_neg (Ne.symm h.1)]

theorem lastVal_const {α : Type} (g : String → α) (ps : List (String × α)) (k : String)
    (hg : ∀ p ∈ ps, p.2 = g p.1) :
    lastVal ps k = if k ∈ ps.map Prod.fst then some (g k) else none := by
  induction ps with
  | nil => simp [lastVal]
  | cons p t ih =>
      have hgt : ∀ q ∈ t, q.2 = g q.1 := fun q hq => hg q (List.mem_cons_of_mem p hq)
      simp only [lastVal, ih hgt, List.map_cons, List.mem_cons]
      by_cases hm : k ∈ t.map Prod.fst
      · simp [hm]
      · simp only [if_neg hm]
        by_cases hp : p.1 = k
        · rw [if_pos hp, hg p (List.mem_cons_self p t), hp]
          simp
        · rw [if_neg hp, if_neg ?_]
          rintro (h | h)
          · exact hp h.symm
          · exact hm h

theorem foldPairs_eq_append {α : Type} (ps : List (String × α)) :
    ∀ d : PyDict α, (ps.map Prod.fst).Nodup → (∀ k ∈ ps.map Prod.fst, k ∉ dictKeys d) →
      foldPairs d ps = d ++ ps := by
  induction ps with
  | nil => intro d _ _; simp [foldPairs]
  | cons p t ih =>
      intro d hnd hdisj
      simp only [List.map_cons, List.nodup_cons] at hnd
      have step : foldPairs d (p :: t) = foldPairs (dictInsert d p.1 p.2) t := rfl
      rw [step, dictInsert_of_not_mem p.2 (hdisj p.1 (by simp))]
      rw [ih (d ++ [(p.1, p.2)]) hnd.2 ?_]
      · simp
      · intro k hk
        simp only [dictKeys, List.map_append, List.mem_append, List.map_cons,
          List.map_nil, List.mem_singleton, not_or]
        refine ⟨hdisj k (by simp [hk]), fun he => hnd.1 (he ▸ hk)⟩

theorem buildRecord_of_nodup (hs row : List String) (h : hs.Nodup) :
    buildRecord hs row = pairsOf hs row := by
  rw [buildRecord_eq_foldPairs,
    foldPairs_eq_append _ [] (by rw [pairsOf_map_fst]; exact h) (by simp [dictKeys])]
  simp

theorem pairsOf_getElem? (hs row : List String) (j : Nat) :
    (pairsOf hs row)[j]? = hs[j]?.map (fun a => (a, row.getD j "")) := by
  unfold pairsOf
  rw [List.getElem?_map, enumF_getElem?]
  cases hs[j]? with
  | none => rfl
  | some a => simp

theorem dictLookup_nodup_getElem {α : Type} (ps : PyDict α) :
    (ps.map Prod.fst).Nodup →
      ∀ (j : Nat) (k : String) (v : α), ps[j]? = some (k, v) → dictLookup ps k = some v := by
  induction ps with
  | nil => intro _ j k v hj; simp at hj
  | cons p t ih =>
      intro hnd j k v hj
      simp only [List.map_cons, List.nodup_cons] at hnd
      cases j with
      | zero =>
          simp only [List.getElem?_cons_zero, Option.some.injEq] at hj
          subst hj
          simp [dictLookup]
      | succ j =>
          simp only [List.getElem?_cons_succ] at hj
          have hmem : k ∈ t.map Prod.fst := by
            have h1 : j < t.length := by
              by_contra hcon
              rw [List.getElem?_eq_none (Nat.le_of_not_lt hcon)] at hj
              exact Option.noConfusion hj
            have h2 : t[j] = (k, v) := by
              have := List.getElem?_eq_getElem h1
              rw [this] at hj
              exact Option.some.injEq _ _ ▸ hj
            have h3 : (k, v) ∈ t := h2 ▸ List.getElem_mem h1
            exact List.mem_map_of_mem Prod.fst h3
          have hne : ¬ p.1 = k := fun he => hnd.1 (he ▸ hmem)
          simp only [dictLookup, if_neg hne]
          exact ih hnd.2 j k v hj

theorem getD_map {α β : Type} (g : α → β) (l : List α) :
    ∀ (j : Nat) (d : β), (l.map g).getD j d = (l[j]?.map g).getD d := by
  induction l with
  | nil => intro j d; simp [List.getD]
  | cons a t ih =>
      intro j d
      cases j with
      | zero => simp [List.getD]
      | succ j =>
          simp only [List.map_cons, List.getD_cons_succ, List.getElem?_cons_succ]
          exact ih j d

/-- Rebuilding a record from its own rendered row (`dictGet` at each header,
in header order) reproduces the record, duplicate headers included. -/
theorem rebuild_record (hs row : List String) :
    buildRecord hs (hs.map (fun c => dictGet (buildRecord hs row) c "")) =
      buildRecord hs row := by
  have hkeys1 := dictKeys_buildRecord hs (hs.map (fun c => dictGet (buildRecord hs row) c ""))
  have hkeys2 := dictKeys_buildRecord hs row
  refine dictExt (dictKeys_buildRecord_nodup hs _) (hkeys1.trans hkeys2.symm) ?_
  intro k
  rw [dictLookup_buildRecord]
  have hconst : ∀ p ∈ pairsOf hs (hs.map (fun c => dictGet (buildRecord hs row) c "")),
      p.2 = dictGet (buildRecord hs row) p.1 "" := by
    intro p hp
    obtain ⟨q, hq, rfl⟩ := List.mem_map.mp hp
    obtain ⟨j, hj, rfl⟩ := enumF_mem hs 0 q hq
    simp only [Nat.zero_add]
    rw [getD_map, List.getElem?_eq_getElem hj]
    rfl
  rw [lastVal_const (fun c => dictGet (buildRecord hs row) c "") _ k hconst, pairsOf_map_fst]
  by_cases hk : k ∈ hs
  · have hmem : k ∈ dictKeys (buildRecord hs row) := by
      rw [dictKeys_buildRecord]
      exact (mem_insKeys k hs []).mpr (Or.inr hk)
    obtain ⟨v, hv⟩ := dictLookup_mem_some hmem
    rw [if_pos hk, hv]
    simp [dictGet, hv]
  · rw [if_neg hk]
    exact ((dictLookup_eq_none_iff _ k).mpr
      (by rw [dictKeys_buildRecord]; exact fun hmem =>
        hk (((mem_insKeys k hs []).mp hmem).resolve_left (by simp)))).symm

theorem sampleOf_subset {data : List Record} {r : Record} (h : r ∈ sampleOf data) :
    r ∈ data := by
  unfold sampleOf at h
  split at h
  · exact List.take_subset 3 data h
  · exact h

theorem sampleOf_cons (d : Record) (ds : List Record) :
    sampleOf (d :: ds) = d :: (if 2 < ds.length then ds.take 2 else ds) := by
  unfold sampleOf
  by_cases h : 2 < ds.length
  · rw [if_pos (by simp only [List.length_cons]; omega), if_pos h]
    rfl
  · rw [if_neg (by simp only [List.length_cons]; omega), if_neg h]

theorem sample_roundtrip (hs : List String) (rows : List (List String)) :
    ∀ rec ∈ sampleOf (rows.map (buildRecord hs)),
      buildRecord hs (hs.map (fun c => dictGet rec c "")) = rec := by
  intro rec hrec
  obtain ⟨row, _, rfl⟩ := List.mem_map.mp (sampleOf_subset hrec)
  exact rebuild_record hs row

/-! ### Lemmas about the per-column analysis loops -/

theorem condInsertFold_lookup {α : Type} (g : String → Option α) (hs : List String) :
    ∀ (acc : PyDict α) (col : String),
      dictLookup (hs.foldl (fun acc col =>
          match g col with
          | some v => dictInsert acc col v
          | none => acc) acc) col =
        if col ∈ hs then
          match g col with
          | some v => some v
          | none => dictLookup acc col
        else dictLookup acc col := by
  induction hs with
  | nil => intro acc col; simp
  | cons c t ih =>
      intro acc col
      simp only [List.foldl_cons]
      rw [ih]
      by_cases hct : col ∈ t
      · rw [if_pos hct, if_pos (List.mem_cons_of_mem c hct)]
        cases hg : g col with
        | some v => rfl
        | none =>
            simp only
            cases hgc : g c with
            | none => rfl
            | some w =>
                rw [dictLookup_dictInsert]
                have hne : ¬ col = c := fun he => by rw [he, hgc] at hg; exact Option.noConfusion hg
                rw [if_neg hne]
      · by_cases hcc : col = c
        · subst hcc
          rw [if_neg hct, if_pos (List.mem_cons_self col t)]
          cases hg : g col with
          | some v => rw [dictLookup_dictInsert, if_pos rfl]
          | none => rfl
        · rw [if_neg hct, if_neg (by
            intro hmem
            rcases List.mem_cons.mp hmem with h | h
            · exact hcc h
            · exact hct h)]
          cases hgc : g c with
          | none => rfl
          | some w => rw [dictLookup_dictInsert, if_neg hcc]

theorem dictLookup_condInsertFold {α : Type} (g : String → Option α)
    (hs : List String) (col : String) :
    dictLookup (condInsertFold g hs) col = if col ∈ hs then g col else none := by
  unfold condInsertFold
  rw [condInsertFold_lookup]
  by_cases h : col ∈ hs
  · simp only [if_pos h]
    cases g col <;> rfl
  · simp only [if_neg h]
    rfl

theorem eligValues_cons (r : Record) (rest : List Record) (col : String) :
    eligValues (r :: rest) col =
      (if pyEligible (dictGet r col "") then [dictGet r col ""] else []) ++ eligValues rest col := by
  simp only [eligValues, List.map_cons, List.filter_cons]
  by_cases h : pyEligible (dictGet r col "") <;> simp [h]

theorem filterMap_length_of_isSome {α β : Type} (f : α → Option β) :
    ∀ l : List α, (∀ v ∈ l, (f v).isSome) → (l.filterMap f).length = l.length := by
  intro l
  induction l with
  | nil => intro _; rfl
  | cons a t ih =>
      intro h
      obtain ⟨b, hb⟩ := Option.isSome_iff_exists.mp (h a (List.mem_cons_self a t))
      simp only [List.filterMap_cons, hb, List.length_cons]
      rw [ih (fun v hv => h v (List.mem_cons_of_mem a hv))]

theorem colValues_eq (col : String) :
    ∀ data : List Record, (∀ r ∈ data, (dictLookup r col).isSome) →
      (∀ v ∈ eligValues data col, (pyFloat v).isSome) →
      colValues data col = some ((eligValues data col).filterMap pyFloat) := by
  intro data
  induction data with
  | nil => intro _ _; simp [colValues, eligValues]
  | cons r rest ih =>
      intro hk hp
      obtain ⟨v, hv⟩ := Option.isSome_iff_exists.mp (hk r (List.mem_cons_self r rest))
      have hget : dictGet r col "" = v := by simp [dictGet, hv]
      simp only [colValues, hv]
      by_cases he : pyEligible v
      · have hveq : v ∈ eligValues (r :: rest) col := by
          rw [eligValues_cons, hget, if_pos he]
          exact List.mem_cons_self v _
        obtain ⟨q, hq⟩ := Option.isSome_iff_exists.mp (hp v hveq)
        rw [if_pos he, hq]
        rw [ih (fun r2 h2 => hk r2 (List.mem_cons_of_mem r h2))
          (fun v2 h2 => hp v2 (by rw [eligValues_cons, hget, if_pos he]; exact List.mem_cons_of_mem v h2))]
        rw [eligValues_cons, hget, if_pos he]
        simp [List.filterMap_cons, hq]
      · rw [if_neg he]
        rw [ih (fun r2 h2 => hk r2 (List.mem_cons_of_mem r h2))
          (fun v2 h2 => hp v2 (by rw [eligValues_cons, hget, if_neg he]; exact h2))]
        rw [eligValues_cons, hget, if_neg he]
        simp

theorem colValues_none_of_bad (col : String) :
    ∀ (data : List Record) (r : Record), r ∈ data → ∀ v : String, dictLookup r col = some v →
      pyEligible v = true → pyFloat v = none → colValues data col = none := by
  intro data
  induction data with
  | nil => intro r hr; simp at hr
  | cons r0 rest ih =>
      intro r hr v hv he hf
      rcases List.mem_cons.mp hr with rfl | hr
      · simp [colValues, hv, he, hf]
      · simp only [colValues]
        cases h0 : dictLookup r0 col with
        | none => rfl
        | some v0 =>
            dsimp only
            by_cases he0 : pyEligible v0
            · rw [if_pos he0]
              cases hf0 : pyFloat v0 with
              | none => rfl
              | some q0 => rw [ih r hr v hv he hf]; rfl
            · rw [if_neg he0]
              exact ih r hr v hv he hf

/-! ### Lemmas about the frequency table and the stable sort -/

theorem dictLookup_freqFold (v : String) :
    ∀ (vals : List String) (acc : PyDict Nat),
      dictLookup (vals.foldl (fun counts x => dictInsert counts x (dictGet counts x 0 + 1)) acc) v =
        if v ∈ vals then some (dictGet acc v 0 + vals.count v) else dictLookup acc v := by
  intro vals
  induction vals with
  | nil => intro acc; simp
  | cons x t ih =>
      intro acc
      simp only [List.foldl_cons]
      rw [ih]
      by_cases hvt : v ∈ t
      · rw [if_pos hvt, if_pos (List.mem_cons_of_mem x hvt)]
        have harith : dictGet (dictInsert acc x (dictGet acc x 0 + 1)) v 0 + t.count v =
            dictGet acc v 0 + (x :: t).count v := by
          unfold dictGet
          rw [dictLookup_dictInsert]
          by_cases hvx : v = x
          · subst hvx
            rw [if_pos rfl]
            simp only [Option.getD_some, List.count_cons, beq_self_eq_true, if_true]
            omega
          · rw [if_neg hvx]
            have hxv : (x == v) = false := by simpa using Ne.symm hvx
            simp [List.count_cons, hxv]
        rw [harith]
      · rw [if_neg hvt]
        by_cases hvx : v = x
        · subst hvx
          rw [if_pos (List.mem_cons_self v t), dictLookup_dictInsert, if_pos rfl]
          have : t.count v = 0 := by
            rw [List.count_eq_zero]
            exact hvt
          simp [List.count_cons, this]
        · rw [if_neg (by
            intro hmem
            rcases List.mem_cons.mp hmem with h | h
            · exact hvx h
            · exact hvt h)]
          rw [dictLookup_dictInsert, if_neg hvx]

theorem dictLookup_freqTable (vals : List String) (v : String) :
    dictLookup (freqTable vals) v = if v ∈ vals then some (vals.count v) else none := by
  unfold freqTable
  rw [dictLookup_freqFold]
  by_cases h : v ∈ vals
  · simp [h, dictGet, dictLookup]
  · simp [h, dictLookup]

theorem dictKeys_freqFold (vals : List String) :
    ∀ acc : PyDict Nat,
      dictKeys (vals.foldl (fun counts x => dictInsert counts x (dictGet counts x 0 + 1)) acc) =
        insKeys (dictKeys acc) vals := by
  induction vals with
  | nil => intro acc; rfl
  | cons x t ih =>
      intro acc
      simp only [List.foldl_cons, insKeys]
      rw [ih, dictKeys_dictInsert]

theorem dictKeys_freqTable (vals : List String) :
    dictKeys (freqTable vals) = insKeys [] vals := by
  unfold freqTable
  rw [dictKeys_freqFold]
  rfl

theorem filter_orderedInsert (c : Nat) (a : String × Nat) :
    ∀ l : List (String × Nat),
      (List.orderedInsert countGE a l).filter (fun p => p.2 == c) =
        (if a.2 = c then [a] else []) ++ l.filter (fun p => p.2 == c) := by
  intro l
  induction l with
  | nil =>
      simp only [List.orderedInsert, List.filter_cons, List.filter_nil, List.append_nil]
      by_cases h : a.2 = c <;> simp [h]
  | cons b t ih =>
      simp only [List.orderedInsert]
      by_cases hab : countGE a b
      · rw [if_pos hab]
        simp only [List.filter_cons]
        by_cases hac : a.2 = c <;> by_cases hbc : b.2 = c <;> simp [hac, hbc]
      · rw [if_neg hab]
        have hlt : a.2 < b.2 := Nat.lt_of_not_le (by simpa [countGE] using hab)
        simp only [List.filter_cons]
        by_cases hbc : b.2 = c
        · have hac : ¬ a.2 = c := by omega
          simp [hbc, ih, hac]
        · simp [hbc, ih]

theorem filter_sortByCountDesc (c : Nat) :
    ∀ l : List (String × Nat),
      (sortByCountDesc l).filter (fun p => p.2 == c) = l.filter (fun p => p.2 == c) := by
  intro l
  induction l with
  | nil => rfl
  | cons a t ih =>
      show (List.orderedInsert countGE a (List.insertionSort countGE t)).filter _ = _
      rw [filter_orderedInsert]
      have ih2 : (List.insertionSort countGE t).filter (fun p => p.2 == c) =
          t.filter (fun p => p.2 == c) := ih
      rw [ih2]
      simp only [List.filter_cons]
      by_cases h : a.2 = c <;> simp [h]

theorem sorted_sortByCountDesc (l : List (String × Nat)) :
    (sortByCountDesc l).Pairwise (fun a b => b.2 ≤ a.2) :=
  List.sorted_insertionSort countGE l

theorem trendsValues_eq_nil (data : List Record) (col : String)
    (h : ∀ r ∈ data, pyStrip (dictGet r col "") = "") : trendsValues data col = [] := by
  unfold trendsValues
  rw [List.filter_eq_nil_iff]
  intro s hs
  obtain ⟨r, hr, rfl⟩ := List.mem_map.mp hs
  rw [h r hr]
  decide

/-! ### Lemmas about the composed report -/

theorem composeReportData_flat (title ts src : String) (rc cc ne : Nat)
    (cols : List String) (s0 : Record) (srest : List Record) :
    composeReportData title ts src rc cc ne cols (s0 :: srest) =
      ([[title], ["Generated on:", ts], ["Source Range:", src], [""], ["Summary Statistics:"],
        ["Total Rows:", toString rc], ["Total Columns:", toString cc],
        ["Non-empty Cells:", toString ne], [""], ["Column Names:"]]
       ++ (enumF 1 cols).map (fun p => [toString p.1 ++ ".", p.2])
       ++ [[""], ["Sample Data (first 3 rows):"]])
      ++ cols :: (s0 :: srest).map (fun r => cols.map (fun c => dictGet r c "")) := by
  unfold composeReportData
  rw [if_neg (by simp)]
  simp [List.append_assoc]

theorem composeReportData_length (title ts src : String) (rc cc ne : Nat)
    (cols : List String) (s0 : Record) (srest : List Record) :
    (composeReportData title ts src rc cc ne cols (s0 :: srest)).length =
      13 + cols.length + (s0 :: srest).length := by
  rw [composeReportData_flat]
  simp only [List.length_append, List.length_cons, List.length_map, enumF_length]
  simp
  omega

theorem composeReportData_drop (title ts src : String) (rc cc ne : Nat)
    (cols : List String) (s0 : Record) (srest : List Record) :
    (composeReportData title ts src rc cc ne cols (s0 :: srest)).drop (12 + cols.length) =
      cols :: (s0 :: srest).map (fun r => cols.map (fun c => dictGet r c "")) := by
  rw [composeReportData_flat]
  have hlen :
      ([[title], ["Generated on:", ts], ["Source Range:", src], [""], ["Summary Statistics:"],
        ["Total Rows:", toString rc], ["Total Columns:", toString cc],
        ["Non-empty Cells:", toString ne], [""], ["Column Names:"]]
       ++ (enumF 1 cols).map (fun p => [toString p.1 ++ ".", p.2])
       ++ [[""], ["Sample Data (first 3 rows):"]]).length = 12 + cols.length := by
    simp only [List.length_append, List.length_map, enumF_length]
    simp
    omega
  rw [← hlen, List.drop_left]

/-! ### Claim theorems -/

/-- **C1, counterexample.**  The claim as stated fails on a grid whose
header row repeats a name: for `[["a","a"],["x","y"]]` the derived record
has 1 key, not `|headers| = 2`. -/
theorem claim1_counterexample :
    ¬ (dictKeys (buildRecord ["a", "a"] ["x", "y"])).length =
        (["a", "a"] : List String).length := by
  decide

/-- **C1 (amended: headers pairwise distinct).**  For every grid with at
least 2 rows whose header row has no duplicate name, the record-building
step of `read_sheet_data` produces `|grid| - 1` records in sheet-row order;
each record is exactly the header list paired position-by-position with the
row's cell when present and `""` otherwise (so it has `|headers|` keys and
cells beyond the header count are dropped), and looking up `headers[j]`
yields cell `j` of the data row, or `""` when the row is shorter. -/
theorem claim1_amended (hs row0 : List String) (rows : List (List String))
    (hnd : hs.Nodup) :
    readCore (.ok (hs :: row0 :: rows)) =
      .structured hs ((row0 :: rows).map (buildRecord hs)) (row0 :: rows).length
    ∧ ((row0 :: rows).map (buildRecord hs)).length = (hs :: row0 :: rows).length - 1
    ∧ ∀ row ∈ row0 :: rows,
        buildRecord hs row = (enumF 0 hs).map (fun p => (p.2, row.getD p.1 ""))
        ∧ dictKeys (buildRecord hs row) = hs
        ∧ ∀ (j : Nat) (hj : j < hs.length),
            dictLookup (buildRecord hs row) hs[j] = some (row.getD j "") := by
  refine ⟨rfl, by simp, ?_⟩
  intro row _
  refine ⟨buildRecord_of_nodup hs row hnd, ?_, ?_⟩
  · rw [dictKeys_buildRecord,
      insKeys_of_disjoint_nodup hs [] hnd (fun k _ => List.not_mem_nil k)]
    simp
  · intro j hj
    rw [buildRecord_of_nodup hs row hnd]
    refine dictLookup_nodup_getElem (pairsOf hs row)
      (by rw [pairsOf_map_fst]; exact hnd) j hs[j] (row.getD j "") ?_
    rw [pairsOf_getElem?, List.getElem?_eq_getElem hj]
    rfl

/-- **C1, witness** at the grid `[["a","b"],["x"],["y","z","w"]]`: the
short row is padded with `""` and the long row's extra cell is dropped. -/
theorem claim1_witness :
    (["a", "b"] : List String).Nodup
    ∧ (readCore (.ok (["a", "b"] :: ["x"] :: [["y", "z", "w"]])) =
        .structured ["a", "b"] (([["x"], ["y", "z", "w"]]).map (buildRecord ["a", "b"]))
          ([["x"], ["y", "z", "w"]]).length
      ∧ (([["x"], ["y", "z", "w"]]).map (buildRecord ["a", "b"])).length =
          ((["a", "b"] : List String) :: ["x"] :: [["y", "z", "w"]]).length - 1
      ∧ ∀ row ∈ [["x"], ["y", "z", "w"]],
          buildRecord ["a", "b"] row =
            (enumF 0 ["a", "b"]).map (fun p => (p.2, row.getD p.1 ""))
          ∧ dictKeys (buildRecord ["a", "b"] row) = ["a", "b"]
          ∧ ∀ (j : Nat) (hj : j < (["a", "b"] : List String).length),
              dictLookup (buildRecord ["a", "b"] row) (["a", "b"] : List String)[j] =
                some (row.getD j "")) :=
  ⟨by decide, claim1_amended ["a", "b"] ["x"] [["y", "z", "w"]] (by decide)⟩

theorem lastVal_last_occ (row : List String) (h : String) :
    ∀ (hs : List String) (i0 : Nat), h ∈ hs →
      ∃ j, ∃ hj : j < hs.length, hs[j] = h
        ∧ (∀ (j2 : Nat) (hj2 : j2 < hs.length), j < j2 → hs[j2] ≠ h)
        ∧ lastVal ((enumF i0 hs).map (fun p => (p.2, row.getD p.1 ""))) h =
            some (row.getD (i0 + j) "") := by
  intro hs
  induction hs with
  | nil => intro i0 hmem; simp at hmem
  | cons a t ih =>
      intro i0 hmem
      by_cases hht : h ∈ t
      · obtain ⟨j, hj, hget, hlast, hval⟩ := ih (i0 + 1) hht
        refine ⟨j + 1, by simp only [List.length_cons]; omega, ?_, ?_, ?_⟩
        · simpa using hget
        · intro j2 hj2 hlt
          cases j2 with
          | zero => omega
          | succ j2 =>
              intro hEq
              exact hlast j2 (by simp only [List.length_cons] at hj2; omega)
                (by omega) (by simpa using hEq)
        · simp only [enumF, List.map_cons, lastVal]
          rw [hval]
          have harith : i0 + 1 + j = i0 + (j + 1) := by omega
          rw [harith]
      · have ha : h = a := by
          rcases List.mem_cons.mp hmem with h1 | h1
          · exact h1
          · exact absurd h1 hht
        subst ha
        refine ⟨0, by simp, by simp, ?_, ?_⟩
        · intro j2 hj2 hlt hEq
          cases j2 with
          | zero => omega
          | succ j2 =>
              refine hht ?_
              rw [← hEq]
              simp only [List.getElem_cons_succ]
              exact List.getElem_mem _
        · simp only [enumF, List.map_cons, lastVal]
          rw [lastVal_eq_none _ h (by rw [enumF_map_pair_fst]; exact hht)]
          simp

/-- **C10.**  When the header row repeats a name, each derived record has
exactly one key per distinct header name (its key list is the
first-encounter deduplication of the headers: no duplicates, same members),
hence strictly fewer keys than `|headers|`; and the value bound to any
header name is the cell at the last (highest) index carrying that name, or
`""` when the data row has no cell at that index. -/
theorem claim10_duplicate_headers (hs row : List String) (hdup : ¬ hs.Nodup) :
    dictKeys (buildRecord hs row) = insKeys [] hs
    ∧ (dictKeys (buildRecord hs row)).Nodup
    ∧ (∀ h, h ∈ dictKeys (buildRecord hs row) ↔ h ∈ hs)
    ∧ (dictKeys (buildRecord hs row)).length < hs.length
    ∧ ∀ h ∈ hs, ∃ i, ∃ hi : i < hs.length, hs[i] = h
        ∧ (∀ (j : Nat) (hj : j < hs.length), i < j → hs[j] ≠ h)
        ∧ dictLookup (buildRecord hs row) h = some (row.getD i "") := by
  refine ⟨dictKeys_buildRecord hs row, ?_, ?_, ?_, ?_⟩
  · rw [dictKeys_buildRecord]
    exact insKeys_nodup hs [] List.nodup_nil
  · intro h
    rw [dictKeys_buildRecord, mem_insKeys]
    simp
  · rw [dictKeys_buildRecord]
    have := insKeys_length_lt_of_dup hs hdup []
    simpa using this
  · intro h hmem
    obtain ⟨j, hj, hget, hlast, hval⟩ := lastVal_last_occ row h hs 0 hmem
    refine ⟨j, hj, hget, hlast, ?_⟩
    rw [dictLookup_buildRecord]
    have : lastVal (pairsOf hs row) h = some (row.getD (0 + j) "") := hval
    simpa using this

/-- **C10, witness** at headers `["a","b","a"]` (name `"a"` duplicated) and
the one-cell row `["x"]`: the record keeps keys `["a","b"]`, and `"a"` is
bound to the cell at the last index 2, which is past the row's end, so `""`. -/
theorem claim10_witness :
    ¬ (["a", "b", "a"] : List String).Nodup
    ∧ (dictKeys (buildRecord ["a", "b", "a"] ["x"]) = insKeys [] ["a", "b", "a"]
      ∧ (dictKeys (buildRecord ["a", "b", "a"] ["x"])).Nodup
      ∧ (∀ h, h ∈ dictKeys (buildRecord ["a", "b", "a"] ["x"]) ↔ h ∈ ["a", "b", "a"])
      ∧ (dictKeys (buildRecord ["a", "b", "a"] ["x"])).length <
          (["a", "b", "a"] : List String).length
      ∧ ∀ h ∈ ["a", "b", "a"], ∃ i, ∃ hi : i < (["a", "b", "a"] : List String).length,
          (["a", "b", "a"] : List String)[i] = h
          ∧ (∀ (j : Nat) (hj : j < (["a", "b", "a"] : List String).length),
              i < j → (["a", "b", "a"] : List String)[j] ≠ h)
          ∧ dictLookup (buildRecord ["a", "b", "a"] ["x"]) h = some (["x"].getD i "")) :=
  ⟨by decide, claim10_duplicate_headers ["a", "b", "a"] ["x"] (by decide)⟩

theorem statsOf_eq_of_good (data : List Record) (col : String)
    (hk : ∀ r ∈ data, (dictLookup r col).isSome)
    (hp : ∀ v ∈ eligValues data col, (pyFloat v).isSome) :
    statsOf data col =
      match (eligValues data col).filterMap pyFloat with
      | [] => none
      | q :: qs => some { count := (q :: qs).length
                          mean := (q :: qs).sum / ((q :: qs).length : ℚ)
                          min := pyMin (q :: qs)
                          max := pyMax (q :: qs) } := by
  unfold statsOf
  rw [colValues_eq col data hk hp]
  cases (eligValues data col).filterMap pyFloat <;> rfl

/-- **C2, counterexample.**  The claim as stated fails when an eligible
value does not parse as a float: `"--5"` passes the eligibility test, so
its column has one eligible value, yet the whole column is absent from
`numeric_statistics` instead of reporting `count = 1`. -/
theorem claim2_counterexample :
    pyEligible "--5" = true
    ∧ (eligValues [[("a", "--5")]] "a").length = 1
    ∧ dictLookup (numericStatistics ["a"] [[("a", "--5")]]) "a" = none := by
  refine ⟨by decide, by decide, by decide⟩

/-- **C2 (amended: provided every record has the column and every eligible
value of the column parses as a float).**  A value is eligible exactly when
the string, with all `'.'` and `'-'` characters removed, is non-empty and
all decimal digits; a column with zero eligible values is absent from the
statistics; a column whose eligible values parse to `q :: qs` reports
count = number of eligible values, mean = their sum divided by their
number, and min/max = their numeric minimum/maximum.  In particular the
column `["1","2","x","3.5"]` reports count 3, mean 13/6 (= 6.5/3), min 1,
max 3.5. -/
theorem claim2_amended (hs : List String) (data : List Record) (col : String)
    (hcol : col ∈ hs)
    (hk : ∀ r ∈ data, (dictLookup r col).isSome)
    (hp : ∀ v ∈ eligValues data col, (pyFloat v).isSome) :
    (∀ s : String, pyEligible s = true ↔
        s.data.filter (fun c => !(c = '.' || c = '-')) ≠ []
        ∧ ∀ c ∈ s.data.filter (fun c => !(c = '.' || c = '-')), c.isDigit)
    ∧ (eligValues data col = [] → dictLookup (numericStatistics hs data) col = none)
    ∧ (∀ (q : ℚ) (qs : List ℚ), (eligValues data col).filterMap pyFloat = q :: qs →
        dictLookup (numericStatistics hs data) col =
          some { count := (eligValues data col).length
                 mean := (q :: qs).sum / ((q :: qs).length : ℚ)
                 min := pyMin (q :: qs)
                 max := pyMax (q :: qs) }
        ∧ (q :: qs).length = (eligValues data col).length)
    ∧ dictLookup (numericStatistics ["c"]
          [[("c", "1")], [("c", "2")], [("c", "x")], [("c", "3.5")]]) "c" =
        some { count := 3, mean := (13 : ℚ) / 6, min := 1, max := (7 : ℚ) / 2 } := by
  refine ⟨?_, ?_, ?_, ?_⟩
  · intro s
    unfold pyEligible
    rw [Bool.and_eq_true, List.all_eq_true]
    constructor
    · rintro ⟨h1, h2⟩
      refine ⟨?_, h2⟩
      intro hnil
      rw [hnil] at h1
      simp at h1
    · rintro ⟨h1, h2⟩
      refine ⟨?_, h2⟩
      simpa [List.isEmpty_iff] using h1
  · intro helig
    unfold numericStatistics
    rw [dictLookup_condInsertFold, if_pos hcol, statsOf_eq_of_good data col hk hp, helig]
    rfl
  · intro q qs hfm
    have hlen : (q :: qs).length = (eligValues data col).length := by
      rw [← hfm]
      exact filterMap_length_of_isSome pyFloat _ hp
    unfold numericStatistics
    rw [dictLookup_condInsertFold, if_pos hcol, statsOf_eq_of_good data col hk hp, hfm]
    exact ⟨by rw [← hlen], hlen⟩
  · have hlk : dictLookup (numericStatistics ["c"]
        [[("c", "1")], [("c", "2")], [("c", "x")], [("c", "3.5")]]) "c" =
        statsOf [[("c", "1")], [("c", "2")], [("c", "x")], [("c", "3.5")]] "c" := rfl
    have hcv : colValues [[("c", "1")], [("c", "2")], [("c", "x")], [("c", "3.5")]] "c" =
        some [((1 : ℕ) : ℚ), ((2 : ℕ) : ℚ), ((3 : ℕ) : ℚ) + ((5 : ℕ) : ℚ) / (10 : ℚ) ^ (1 : ℕ)] :=
      rfl
    rw [hlk]
    unfold statsOf
    rw [hcv]
    dsimp only
    rw [Option.some_inj, Stats.mk.injEq]
    refine ⟨by norm_num, by norm_num, by norm_num [pyMin, min_def], by norm_num [pyMax, max_def]⟩

/-- **C2, witness** at the spec's own example column: headers `["c"]`,
column values `["1","2","x","3.5"]`; all hypotheses hold and the reported
statistics are count 3, mean 13/6, min 1, max 7/2. -/
theorem claim2_witness :
    ("c" ∈ (["c"] : List String))
    ∧ (∀ r ∈ [[("c", "1")], [("c", "2")], [("c", "x")], [("c", "3.5")]],
        (dictLookup r "c").isSome)
    ∧ (∀ v ∈ eligValues [[("c", "1")], [("c", "2")], [("c", "x")], [("c", "3.5")]] "c",
        (pyFloat v).isSome)
    ∧ ((∀ s : String, pyEligible s = true ↔
          s.data.filter (fun c => !(c = '.' || c = '-')) ≠ []
          ∧ ∀ c ∈ s.data.filter (fun c => !(c = '.' || c = '-')), c.isDigit)
      ∧ (eligValues [[("c", "1")], [("c", "2")], [("c", "x")], [("c", "3.5")]] "c" = [] →
          dictLookup (numericStatistics ["c"]
            [[("c", "1")], [("c", "2")], [("c", "x")], [("c", "3.5")]]) "c" = none)
      ∧ (∀ (q : ℚ) (qs : List ℚ),
          (eligValues [[("c", "1")], [("c", "2")], [("c", "x")], [("c", "3.5")]]
              "c").filterMap pyFloat = q :: qs →
          dictLookup (numericStatistics ["c"]
              [[("c", "1")], [("c", "2")], [("c", "x")], [("c", "3.5")]]) "c" =
            some { count := (eligValues
                    [[("c", "1")], [("c", "2")], [("c", "x")], [("c", "3.5")]] "c").length
                   mean := (q :: qs).sum / ((q :: qs).length : ℚ)
                   min := pyMin (q :: qs)
                   max := pyMax (q :: qs) }
          ∧ (q :: qs).length = (eligValues
                [[("c", "1")], [("c", "2")], [("c", "x")], [("c", "3.5")]] "c").length)
      ∧ dictLookup (numericStatistics ["c"]
            [[("c", "1")], [("c", "2")], [("c", "x")], [("c", "3.5")]]) "c" =
          some { count := 3, mean := (13 : ℚ) / 6, min := 1, max := (7 : ℚ) / 2 }) :=
  ⟨by decide, by decide, by decide,
    claim2_amended ["c"] [[("c", "1")], [("c", "2")], [("c", "x")], [("c", "3.5")]] "c"
      (by decide) (by decide) (by decide)⟩

/-- **C4, counterexample.**  The claim as stated fails: with column values
`["--5", "1"]` the value `"--5"` is eligible but unparseable, and the whole
column is dropped — the remaining eligible value `"1"` is not counted, so
no `count = 1` entry appears. -/
theorem claim4_counterexample :
    pyEligible "--5" = true ∧ pyFloat "--5" = none
    ∧ pyEligible "1" = true ∧ (pyFloat "1").isSome = true
    ∧ dictLookup (numericStatistics ["a"] [[("a", "--5")], [("a", "1")]]) "a" = none := by
  refine ⟨by decide, by decide, by decide, by decide, by decide⟩

/-- **C4 (amended).**  When a column contains a value that passes the
eligibility test but fails float parsing, the *entire column* is silently
excluded from the statistics result; every column's entry depends only on
its own values (`statsOf`), so the other columns are unaffected and the
analysis as a whole still produces a result. -/
theorem claim4_amended (hs : List String) (data : List Record) (col : String)
    (hcol : col ∈ hs) (r : Record) (hr : r ∈ data) (v : String)
    (hv : dictLookup r col = some v) (he : pyEligible v = true) (hf : pyFloat v = none) :
    dictLookup (numericStatistics hs data) col = none
    ∧ ∀ col2 ∈ hs, dictLookup (numericStatistics hs data) col2 = statsOf data col2 := by
  constructor
  · unfold numericStatistics
    rw [dictLookup_condInsertFold, if_pos hcol]
    unfold statsOf
    rw [colValues_none_of_bad col data r hr v hv he hf]
  · intro col2 h2
    unfold numericStatistics
    rw [dictLookup_condInsertFold, if_pos h2]

/-- **C4, witness** at headers `["a","b"]` with column `a` = `["--5","1"]`
(dropped whole) and column `b` = `["2","4"]` (unaffected). -/
theorem claim4_witness :
    ("a" ∈ (["a", "b"] : List String))
    ∧ ([("a", "--5"), ("b", "2")] ∈
        [[("a", "--5"), ("b", "2")], [("a", "1"), ("b", "4")]])
    ∧ dictLookup [("a", "--5"), ("b", "2")] "a" = some "--5"
    ∧ pyEligible "--5" = true ∧ pyFloat "--5" = none
    ∧ (dictLookup (numericStatistics ["a", "b"]
          [[("a", "--5"), ("b", "2")], [("a", "1"), ("b", "4")]]) "a" = none
      ∧ ∀ col2 ∈ (["a", "b"] : List String),
          dictLookup (numericStatistics ["a", "b"]
              [[("a", "--5"), ("b", "2")], [("a", "1"), ("b", "4")]]) col2 =
            statsOf [[("a", "--5"), ("b", "2")], [("a", "1"), ("b", "4")]] col2) :=
  ⟨by decide, by decide, by decide, by decide, by decide,
    claim4_amended ["a", "b"] [[("a", "--5"), ("b", "2")], [("a", "1"), ("b", "4")]] "a"
      (by decide) [("a", "--5"), ("b", "2")] (by decide) "--5"
      (by decide) (by decide) (by decide)⟩

/-- **C3, counterexample.**  A column whose only value trims to empty is
*omitted* from `most_common_values` (`if values:` fails, so the key is
never inserted): it is not mapped to an empty list. -/
theorem claim3_counterexample :
    dictLookup (mostCommonValues ["a"] [[("a", " ")]]) "a" = none
    ∧ ¬ dictLookup (mostCommonValues ["a"] [[("a", " ")]]) "a" = some [] := by
  refine ⟨by decide, by decide⟩

/-- **C3 (amended).**  In the trends analysis, a header column whose values
are all empty after trimming is omitted from `most_common_values` (its key
is absent), not mapped to an empty list. -/
theorem claim3_amended (hs : List String) (data : List Record) (col : String)
    (hcol : col ∈ hs) (hempty : ∀ r ∈ data, pyStrip (dictGet r col "") = "") :
    dictLookup (mostCommonValues hs data) col = none := by
  unfold mostCommonValues
  rw [dictLookup_condInsertFold, if_pos hcol]
  simp only [mcvOf]
  rw [trendsValues_eq_nil data col hempty]
  rfl

/-- **C3, witness** at headers `["a","b"]` where column `a` holds only the
blank values `" "` and `""`. -/
theorem claim3_witness :
    ("a" ∈ (["a", "b"] : List String))
    ∧ (∀ r ∈ [[("a", " "), ("b", "x")], [("a", ""), ("b", "y")]],
        pyStrip (dictGet r "a" "") = "")
    ∧ dictLookup (mostCommonValues ["a", "b"]
        [[("a", " "), ("b", "x")], [("a", ""), ("b", "y")]]) "a" = none :=
  ⟨by decide, by decide,
    claim3_amended ["a", "b"] [[("a", " "), ("b", "x")], [("a", ""), ("b", "y")]] "a"
      (by decide) (by decide)⟩

/-- **C5.**  For every column with a non-empty trimmed value, the reported
most-common values are the first 3 entries of the stable descending sort of
the column's frequency table; that sort is descending in the counts and,
for every count, preserves the table's relative order (the tie-break), the
table lists each distinct value once in first-encounter order, and its
counts are the frequencies.  The spec's example column
`["a","b","a","c","a","b"]` yields `[("a",3),("b",2),("c",1)]`. -/
theorem claim5_most_common (hs : List String) (data : List Record) (col : String)
    (c : Nat) (hcol : col ∈ hs) (hne : trendsValues data col ≠ []) :
    dictLookup (mostCommonValues hs data) col =
      some ((sortByCountDesc (freqTable (trendsValues data col))).take 3)
    ∧ (sortByCountDesc (freqTable (trendsValues data col))).Pairwise
        (fun a b => b.2 ≤ a.2)
    ∧ (sortByCountDesc (freqTable (trendsValues data col))).filter (fun p => p.2 == c) =
        (freqTable (trendsValues data col)).filter (fun p => p.2 == c)
    ∧ dictKeys (freqTable (trendsValues data col)) = insKeys [] (trendsValues data col)
    ∧ (∀ v, dictLookup (freqTable (trendsValues data col)) v =
        if v ∈ trendsValues data col then some ((trendsValues data col).count v) else none)
    ∧ mostCommon3 ["a", "b", "a", "c", "a", "b"] = [("a", 3), ("b", 2), ("c", 1)] := by
  refine ⟨?_, sorted_sortByCountDesc _, filter_sortByCountDesc c _, dictKeys_freqTable _,
    fun v => dictLookup_freqTable _ v, by decide⟩
  unfold mostCommonValues
  rw [dictLookup_condInsertFold, if_pos hcol]
  simp only [mcvOf]
  rw [if_neg (by simpa [List.isEmpty_iff] using hne)]
  rfl

/-- **C5, witness** at headers `["v"]` with column values
`["a","b","a","c","a","b"]` and tie-count 2. -/
theorem claim5_witness :
    ("v" ∈ (["v"] : List String))
    ∧ trendsValues [[("v", "a")], [("v", "b")], [("v", "a")], [("v", "c")],
        [("v", "a")], [("v", "b")]] "v" ≠ []
    ∧ (dictLookup (mostCommonValues ["v"] [[("v", "a")], [("v", "b")], [("v", "a")],
          [("v", "c")], [("v", "a")], [("v", "b")]]) "v" =
        some ((sortByCountDesc (freqTable (trendsValues [[("v", "a")], [("v", "b")],
          [("v", "a")], [("v", "c")], [("v", "a")], [("v", "b")]] "v"))).take 3)
      ∧ (sortByCountDesc (freqTable (trendsValues [[("v", "a")], [("v", "b")],
          [("v", "a")], [("v", "c")], [("v", "a")], [("v", "b")]] "v"))).Pairwise
            (fun a b => b.2 ≤ a.2)
      ∧ (sortByCountDesc (freqTable (trendsValues [[("v", "a")], [("v", "b")],
          [("v", "a")], [("v", "c")], [("v", "a")], [("v", "b")]] "v"))).filter
            (fun p => p.2 == 2) =
          (freqTable (trendsValues [[("v", "a")], [("v", "b")], [("v", "a")],
            [("v", "c")], [("v", "a")], [("v", "b")]] "v")).filter (fun p => p.2 == 2)
      ∧ dictKeys (freqTable (trendsValues [[("v", "a")], [("v", "b")], [("v", "a")],
          [("v", "c")], [("v", "a")], [("v", "b")]] "v")) =
          insKeys [] (trendsValues [[("v", "a")], [("v", "b")], [("v", "a")],
            [("v", "c")], [("v", "a")], [("v", "b")]] "v")
      ∧ (∀ v, dictLookup (freqTable (trendsValues [[("v", "a")], [("v", "b")],
          [("v", "a")], [("v", "c")], [("v", "a")], [("v", "b")]] "v")) v =
          if v ∈ trendsValues [[("v", "a")], [("v", "b")], [("v", "a")], [("v", "c")],
              [("v", "a")], [("v", "b")]] "v" then
            some ((trendsValues [[("v", "a")], [("v", "b")], [("v", "a")], [("v", "c")],
              [("v", "a")], [("v", "b")]] "v").count v)
          else none)
      ∧ mostCommon3 ["a", "b", "a", "c", "a", "b"] = [("a", 3), ("b", 2), ("c", 1)]) :=
  ⟨by decide, by decide,
    claim5_most_common ["v"] [[("v", "a")], [("v", "b")], [("v", "a")], [("v", "c")],
      [("v", "a")], [("v", "b")]] "v" 2 (by decide) (by decide)⟩

/-- **C6.**  For every analysis kind, an empty grid and a single-row grid
both make `analyze_sheet_data` return the `{"error": ...}` payload (the
"No structured data" message); the embedding is a total function, so no
exception escapes the tool boundary. -/
theorem claim6_no_structured_data (analysisType sheetName rangeName : String)
    (row : List String) :
    analyzeSheetData (.ok []) analysisType sheetName rangeName =
      [("error", .s "No structured data available for analysis")]
    ∧ analyzeSheetData (.ok [row]) analysisType sheetName rangeName =
      [("error", .s "No structured data available for analysis")] :=
  ⟨rfl, rfl⟩

/-- **C7.**  The composed summary report grid is exactly: the title row,
the timestamp row, the echoed source-range row, a blank row, the
`Summary Statistics:` banner, the three labelled counts rendered with
`toString`, a blank row, the `Column Names:` banner, one `["{i}.", col]`
row per column (1-based), a blank row, the sample-data banner, the header
row, and one rendered row per sample record (`dictGet` with `""` default,
in header order); its height is `13 + |columns| + |sample|`, and the
write-back range the report pipeline uses is exactly `H1:K{height}`. -/
theorem claim7_report_layout (title ts src : String) (rc cc ne : Nat)
    (cols : List String) (s0 : Record) (srest : List Record) :
    composeReportData title ts src rc cc ne cols (s0 :: srest) =
      [[title], ["Generated on:", ts], ["Source Range:", src], [""], ["Summary Statistics:"],
       ["Total Rows:", toString rc], ["Total Columns:", toString cc],
       ["Non-empty Cells:", toString ne], [""], ["Column Names:"]]
      ++ (enumF 1 cols).map (fun p => [toString p.1 ++ ".", p.2])
      ++ ([[""], ["Sample Data (first 3 rows):"], cols]
          ++ (s0 :: srest).map (fun r => cols.map (fun c => dictGet r c "")))
    ∧ (composeReportData title ts src rc cc ne cols (s0 :: srest)).length =
        13 + cols.length + (s0 :: srest).length
    ∧ ∀ (w : WriteRemote) (sheet rng : String) (hs row0 : List String)
        (rows : List (List String)),
        dictLookup (createSummaryReport (.ok (hs :: row0 :: rows)) (.ok w) title ts rng sheet)
            "report_location" =
          some (.s (sheet ++ "!" ++ ("H1:K" ++ toString (13 + hs.length
              + (sampleOf ((row0 :: rows).map (buildRecord hs))).length)))) := by
  refine ⟨?_, composeReportData_length title ts src rc cc ne cols s0 srest, ?_⟩
  · rw [composeReportData_flat]
    simp [List.append_assoc]
  · intro w sheet rng hs row0 rows
    have hsam := sampleOf_cons (buildRecord hs row0) (rows.map (buildRecord hs))
    have hlen : (composeReportData title ts (sheet ++ "!" ++ rng)
        ((row0 :: rows).map (buildRecord hs)).length hs.length
        (nonEmptyCells ((row0 :: rows).map (buildRecord hs))) hs
        (sampleOf ((row0 :: rows).map (buildRecord hs)))).length =
        13 + hs.length + (sampleOf ((row0 :: rows).map (buildRecord hs))).length := by
      rw [List.map_cons]
      rw [hsam, composeReportData_length, ← hsam]
    have hcore : analyzeCore (.ok (hs :: row0 :: rows)) "summary" sheet rng =
        .result "summary" (sheet ++ "!" ++ rng) ((row0 :: rows).map (buildRecord hs)).length
          hs.length hs
          (.summary ((row0 :: rows).map (buildRecord hs)).length hs.length
            (nonEmptyCells ((row0 :: rows).map (buildRecord hs)))
            (sampleOf ((row0 :: rows).map (buildRecord hs)))) := rfl
    have hc : ∀ X : String, (match dictLookup (writeSheetData (.ok w) sheet X) "success" with
        | some v => v.truthy
        | none => false) = true := fun X => rfl
    unfold createSummaryReport
    rw [hcore]
    dsimp only
    rw [hc, if_pos rfl, hlen]
    rfl

/-- **C8 (round-trip).**  Take the composed report's sample-data section —
the rows from the repeated header row on, i.e. the report grid with the
first `12 + |headers|` rows dropped — and feed it back through the
record-building step of `read_sheet_data`: the result is structured data
with the same headers whose records are exactly the summary's sample
records, string for string. -/
theorem claim8_roundtrip (title ts src : String) (hs row0 : List String)
    (rows : List (List String)) :
    readCore (.ok ((composeReportData title ts src
        ((row0 :: rows).map (buildRecord hs)).length hs.length
        (nonEmptyCells ((row0 :: rows).map (buildRecord hs))) hs
        (sampleOf ((row0 :: rows).map (buildRecord hs)))).drop (12 + hs.length))) =
      .structured hs (sampleOf ((row0 :: rows).map (buildRecord hs)))
        (sampleOf ((row0 :: rows).map (buildRecord hs))).length := by
  have hsam := sampleOf_cons (buildRecord hs row0) (rows.map (buildRecord hs))
  rw [List.map_cons]
  rw [hsam, composeReportData_drop]
  have hmap : ((buildRecord hs row0 ::
        if 2 < (rows.map (buildRecord hs)).length then (rows.map (buildRecord hs)).take 2
        else rows.map (buildRecord hs)).map
          (fun r => hs.map (fun c => dictGet r c ""))).map (buildRecord hs) =
      buildRecord hs row0 ::
        (if 2 < (rows.map (buildRecord hs)).length then (rows.map (buildRecord hs)).take 2
         else rows.map (buildRecord hs)) := by
    rw [List.map_map, ← hsam]
    refine List.map_congr_left ?_ |>.trans (List.map_id _)
    intro rec hrec
    show buildRecord hs (hs.map (fun c => dictGet rec c "")) = rec
    exact sample_roundtrip hs (row0 :: rows) rec (by rw [List.map_cons]; exact hrec)
  show ReadOutcome.structured hs _ _ = _
  congr 1
  simp

theorem dictLookup_append {α : Type} (l1 l2 : PyDict α) (k : String) :
    dictLookup (l1 ++ l2) k =
      match dictLookup l1 k with
      | some v => some v
      | none => dictLookup l2 k := by
  induction l1 with
  | nil => rfl
  | cons p t ih =>
      simp only [List.cons_append, dictLookup]
      by_cases h : p.1 = k
      · simp [h]
      · simp [h, ih]

theorem payloadFields_no_success (p : KindPayload) :
    dictLookup (payloadFields p) "success" = none := by
  cases p <;> rfl

theorem payloadFields_no_error (p : KindPayload) :
    dictLookup (payloadFields p) "error" = none := by
  cases p <;> rfl

theorem analyzeSheetData_ok_fields (hs row0 : List String) (rows : List (List String))
    (kind sheet rng : String) :
    dictLookup (analyzeSheetData (.ok (hs :: row0 :: rows)) kind sheet rng) "success" = none
    ∧ dictLookup (analyzeSheetData (.ok (hs :: row0 :: rows)) kind sheet rng) "error" = none := by
  have hshape : analyzeSheetData (.ok (hs :: row0 :: rows)) kind sheet rng =
      [("analysis_type", .s kind),
       ("range", .s (sheet ++ "!" ++ rng)),
       ("total_rows", .n ((row0 :: rows).map (buildRecord hs)).length),
       ("total_columns", .n hs.length),
       ("columns", .arr (hs.map .s))]
      ++ payloadFields
          (if kind = "summary" then
            .summary ((row0 :: rows).map (buildRecord hs)).length hs.length
              (nonEmptyCells ((row0 :: rows).map (buildRecord hs)))
              (sampleOf ((row0 :: rows).map (buildRecord hs)))
          else if kind = "statistics" then
            .statistics (numericStatistics hs ((row0 :: rows).map (buildRecord hs)))
          else if kind = "trends" then
            .trends (mostCommonValues hs ((row0 :: rows).map (buildRecord hs)))
              (emptyCells ((row0 :: rows).map (buildRecord hs)))
              (((row0 :: rows).map (buildRecord hs)).length * hs.length)
          else .generic) := rfl
  rw [hshape]
  constructor
  · rw [dictLookup_append]
    exact payloadFields_no_success _
  · rw [dictLookup_append]
    exact payloadFields_no_error _

/-- **C9, counterexample.**  The claim as stated fails: the response of a
successful structured `read_sheet_data` call carries its data fields but no
`success: true` flag (and no error either). -/
theorem claim9_counterexample :
    dictLookup (readSheetData (.ok [["h"], ["v"]]) "Sheet1" "A1:A2") "success" = none
    ∧ dictLookup (readSheetData (.ok [["h"], ["v"]]) "Sheet1" "A1:A2") "error" = none
    ∧ dictLookup (readSheetData (.ok [["h"], ["v"]]) "Sheet1" "A1:A2") "row_count" =
        some (.n 1) :=
  ⟨rfl, rfl, rfl⟩

/-- **C9 (amended).**  Failure responses of all six tools carry an `error`
message field and no success flag, and the embedding is total, so nothing
is raised.  Successful `write`, `append`, `clear` and `create_summary_report`
responses carry `success: true` and no error field; successful `read` and
`analyze` responses carry neither flag, only their operation-specific
fields — this covers the structured (two-or-more-row) read, the single-row
raw read, and the empty read's bare `message`.  On an empty or single-row
grid, `analyze_sheet_data` and `create_summary_report` return the
no-structured-data `error` payload; a failing write inside
`create_summary_report` surfaces as the write's own error payload. -/
theorem claim9_amended :
    (∀ (w : WriteRemote) (sheet rng : String),
        carriesSuccessTrue (writeSheetData (.ok w) sheet rng)
        ∧ ¬ carriesError (writeSheetData (.ok w) sheet rng))
    ∧ (∀ e sheet rng : String,
        carriesError (writeSheetData (.error e) sheet rng)
        ∧ ¬ carriesSuccessTrue (writeSheetData (.error e) sheet rng))
    ∧ (∀ (u : AppendRemote) (data : List (List String)) (sheet : String),
        carriesSuccessTrue (appendSheetData (.ok u) data sheet)
        ∧ ¬ carriesError (appendSheetData (.ok u) data sheet))
    ∧ (∀ (e : String) (data : List (List String)) (sheet : String),
        carriesError (appendSheetData (.error e) data sheet)
        ∧ ¬ carriesSuccessTrue (appendSheetData (.error e) data sheet))
    ∧ (∀ (cr : Option String) (sheet rng : String),
        carriesSuccessTrue (clearSheetRange (.ok cr) sheet rng)
        ∧ ¬ carriesError (clearSheetRange (.ok cr) sheet rng))
    ∧ (∀ e sheet rng : String,
        carriesError (clearSheetRange (.error e) sheet rng)
        ∧ ¬ carriesSuccessTrue (clearSheetRange (.error e) sheet rng))
    ∧ (∀ e sheet rng : String,
        carriesError (readSheetData (.error e) sheet rng)
        ∧ ¬ carriesSuccessTrue (readSheetData (.error e) sheet rng))
    ∧ (∀ sheet rng : String,
        ¬ carriesSuccessTrue (readSheetData (.ok []) sheet rng)
        ∧ ¬ carriesError (readSheetData (.ok []) sheet rng)
        ∧ dictLookup (readSheetData (.ok []) sheet rng) "message" =
            some (.s "No data found in the specified range"))
    ∧ (∀ (hs row0 : List String) (rows : List (List String)) (sheet rng : String),
        ¬ carriesSuccessTrue (readSheetData (.ok (hs :: row0 :: rows)) sheet rng)
        ∧ ¬ carriesError (readSheetData (.ok (hs :: row0 :: rows)) sheet rng)
        ∧ dictLookup (readSheetData (.ok (hs :: row0 :: rows)) sheet rng) "row_count" =
            some (.n (row0 :: rows).length))
    ∧ (∀ (row : List String) (sheet rng : String),
        ¬ carriesSuccessTrue (readSheetData (.ok [row]) sheet rng)
        ∧ ¬ carriesError (readSheetData (.ok [row]) sheet rng)
        ∧ dictLookup (readSheetData (.ok [row]) sheet rng) "raw_data" =
            some (.arr ([row].map (fun r => .arr (r.map .s))))
        ∧ dictLookup (readSheetData (.ok [row]) sheet rng) "row_count" = some (.n 1))
    ∧ (∀ (row : List String) (kind sheet rng : String),
        (carriesError (analyzeSheetData (.ok []) kind sheet rng)
          ∧ ¬ carriesSuccessTrue (analyzeSheetData (.ok []) kind sheet rng))
        ∧ (carriesError (analyzeSheetData (.ok [row]) kind sheet rng)
          ∧ ¬ carriesSuccessTrue (analyzeSheetData (.ok [row]) kind sheet rng)))
    ∧ (∀ (row : List String) (wr : Except String WriteRemote) (title ts rng sheet : String),
        (carriesError (createSummaryReport (.ok []) wr title ts rng sheet)
          ∧ ¬ carriesSuccessTrue (createSummaryReport (.ok []) wr title ts rng sheet))
        ∧ (carriesError (createSummaryReport (.ok [row]) wr title ts rng sheet)
          ∧ ¬ carriesSuccessTrue (createSummaryReport (.ok [row]) wr title ts rng sheet)))
    ∧ (∀ e kind sheet rng : String,
        carriesError (analyzeSheetData (.error e) kind sheet rng)
        ∧ ¬ carriesSuccessTrue (analyzeSheetData (.error e) kind sheet rng))
    ∧ (∀ (hs row0 : List String) (rows : List (List String)) (kind sheet rng : String),
        ¬ carriesSuccessTrue (analyzeSheetData (.ok (hs :: row0 :: rows)) kind sheet rng)
        ∧ ¬ carriesError (analyzeSheetData (.ok (hs :: row0 :: rows)) kind sheet rng))
    ∧ (∀ (hs row0 : List String) (rows : List (List String)) (w : WriteRemote)
          (title ts rng sheet : String),
        carriesSuccessTrue
          (createSummaryReport (.ok (hs :: row0 :: rows)) (.ok w) title ts rng sheet)
        ∧ ¬ carriesError
            (createSummaryReport (.ok (hs :: row0 :: rows)) (.ok w) title ts rng sheet))
    ∧ (∀ (e : String) (wr : Except String WriteRemote) (title ts rng sheet : String),
        carriesError (createSummaryReport (.error e) wr title ts rng sheet)
        ∧ ¬ carriesSuccessTrue (createSummaryReport (.error e) wr title ts rng sheet))
    ∧ (∀ (hs row0 : List String) (rows : List (List String)) (e : String)
          (title ts rng sheet : String),
        carriesError
          (createSummaryReport (.ok (hs :: row0 :: rows)) (.error e) title ts rng sheet)
        ∧ ¬ carriesSuccessTrue
            (createSummaryReport (.ok (hs :: row0 :: rows)) (.error e) title ts rng sheet)) := by
  refine ⟨?_, ?_, ?_, ?_, ?_, ?_, ?_, ?_, ?_, ?_, ?_, ?_, ?_, ?_, ?_, ?_, ?_⟩
  · exact fun w sheet rng => ⟨rfl, fun ⟨m, hm⟩ => nomatch hm⟩
  · exact fun e sheet rng => ⟨⟨"Failed to write sheet data: " ++ e, rfl⟩, fun hm => nomatch hm⟩
  · exact fun u data sheet => ⟨rfl, fun ⟨m, hm⟩ => nomatch hm⟩
  · exact fun e data sheet => ⟨⟨"Failed to append sheet data: " ++ e, rfl⟩, fun hm => nomatch hm⟩
  · exact fun cr sheet rng => ⟨rfl, fun ⟨m, hm⟩ => nomatch hm⟩
  · exact fun e sheet rng => ⟨⟨"Failed to clear sheet range: " ++ e, rfl⟩, fun hm => nomatch hm⟩
  · exact fun e sheet rng => ⟨⟨"Failed to read sheet data: " ++ e, rfl⟩, fun hm => nomatch hm⟩
  · intro sheet rng
    refine ⟨fun hm => (nomatch hm), fun hm => ?_, rfl⟩
    obtain ⟨m, hm⟩ := hm
    exact nomatch hm
  · intro hs row0 rows sheet rng
    refine ⟨fun hm => (nomatch hm), fun hm => ?_, rfl⟩
    obtain ⟨m, hm⟩ := hm
    exact nomatch hm
  · intro row sheet rng
    refine ⟨fun hm => (nomatch hm), fun hm => ?_, rfl, rfl⟩
    obtain ⟨m, hm⟩ := hm
    exact nomatch hm
  · exact fun row kind sheet rng =>
      ⟨⟨⟨"No structured data available for analysis", rfl⟩, fun hm => (nomatch hm)⟩,
       ⟨⟨"No structured data available for analysis", rfl⟩, fun hm => (nomatch hm)⟩⟩
  · exact fun row wr title ts rng sheet =>
      ⟨⟨⟨"No structured data available for analysis", rfl⟩, fun hm => (nomatch hm)⟩,
       ⟨⟨"No structured data available for analysis", rfl⟩, fun hm => (nomatch hm)⟩⟩
  · exact fun e kind sheet rng =>
      ⟨⟨"Failed to read sheet data: " ++ e, rfl⟩, fun hm => nomatch hm⟩
  · intro hs row0 rows kind sheet rng
    obtain ⟨h1, h2⟩ := analyzeSheetData_ok_fields hs row0 rows kind sheet rng
    exact ⟨fun hm => by rw [carriesSuccessTrue, h1] at hm; exact Option.noConfusion hm,
      fun ⟨m, hm⟩ => by rw [h2] at hm; exact Option.noConfusion hm⟩
  · intro hs row0 rows w title ts rng sheet
    have hcore : analyzeCore (.ok (hs :: row0 :: rows)) "summary" sheet rng =
        .result "summary" (sheet ++ "!" ++ rng) ((row0 :: rows).map (buildRecord hs)).length
          hs.length hs
          (.summary ((row0 :: rows).map (buildRecord hs)).length hs.length
            (nonEmptyCells ((row0 :: rows).map (buildRecord hs)))
            (sampleOf ((row0 :: rows).map (buildRecord hs)))) := rfl
    have hc : ∀ X : String,
        (match dictLookup (writeSheetData (.ok w) sheet X) "success" with
        | some v => v.truthy
        | none => false) = true := fun X => rfl
    constructor
    · rw [carriesSuccessTrue]
      unfold createSummaryReport
      rw [hcore]
      dsimp only
      rw [hc, if_pos rfl]
      rfl
    · rintro ⟨m, hm⟩
      rw [createSummaryReport, hcore] at hm
      dsimp only at hm
      rw [hc, if_pos rfl] at hm
      exact nomatch hm
  · intro e wr title ts rng sheet
    exact ⟨⟨"Failed to read sheet data: " ++ e, rfl⟩, fun hm => nomatch hm⟩
  · intro hs row0 rows e title ts rng sheet
    have hcore : analyzeCore (.ok (hs :: row0 :: rows)) "summary" sheet rng =
        .result "summary" (sheet ++ "!" ++ rng) ((row0 :: rows).map (buildRecord hs)).length
          hs.length hs
          (.summary ((row0 :: rows).map (buildRecord hs)).length hs.length
            (nonEmptyCells ((row0 :: rows).map (buildRecord hs)))
            (sampleOf ((row0 :: rows).map (buildRecord hs)))) := rfl
    have hc : ∀ X : String,
        (match dictLookup (writeSheetData (.error e) sheet X) "success" with
        | some v => v.truthy
        | none => false) = false := fun X => rfl
    constructor
    · refine ⟨"Failed to write sheet data: " ++ e, ?_⟩
      unfold createSummaryReport
      rw [hcore]
      dsimp only
      rw [hc]
      rfl
    · intro hm
      rw [carriesSuccessTrue, createSummaryReport, hcore] at hm
      dsimp only at hm
      rw [hc] at hm
      exact nomatch hm

end SheetsAgent
